import Mathlib

/-!
Verification of the RMN ad-extraction core (`src/kroger_ad_core.py`,
`src/ad_extractors/*.py`, `src/process_saved_html.py`).

The Python code operates on HTML documents parsed by BeautifulSoup
(`html.parser`).  We shallowly embed the parsed DOM as a tree of nodes and
translate each extractor, the placement classifier, the registry and the
result aggregator into executable Lean functions over that tree.  The
lenient string-to-DOM parse itself is outside the model: every claim about
"HTML fragments" is formalised over the parsed node trees, and the code's
serialize-then-reparse of a candidate element (`extractor.extract(str(div))`)
is modelled as running the extractor on the one-element document `[div]`.

String operations are re-implemented over `List Char` with Python's
semantics (`str.strip`, `str.split`, `str.lower`, `str.title`,
`re.sub(r"\s+", " ", ·)`, substring containment) so that all definitions
reduce inside the kernel.
-/

namespace RMN

/-- Whitespace characters recognised by Python's `str.strip` / `\s` (ASCII). -/
def isPyWs (c : Char) : Bool :=
  c = ' ' || c = '\t' || c = '\n' || c = '\r' || c = '\x0b' || c = '\x0c'

/-- ASCII lower-casing of one character, as `str.lower` does on ASCII. -/
def toLowerC (c : Char) : Char :=
  if 'A' ≤ c ∧ c ≤ 'Z' then Char.ofNat (c.toNat + 32) else c

/-- ASCII upper-casing of one character, as `str.upper` does on ASCII. -/
def toUpperC (c : Char) : Char :=
  if 'a' ≤ c ∧ c ≤ 'z' then Char.ofNat (c.toNat - 32) else c

/-- ASCII letter test (the cased characters relevant to `str.title`). -/
def isAlphaC (c : Char) : Bool :=
  ('a' ≤ c ∧ c ≤ 'z') || ('A' ≤ c ∧ c ≤ 'Z')

/-- Python `str.lower` on the underlying character list. -/
def lowerL (l : List Char) : List Char := l.map toLowerC

/-- Python `str.strip()` : drop leading and trailing whitespace. -/
def pyStripL (l : List Char) : List Char :=
  ((l.dropWhile isPyWs).reverse.dropWhile isPyWs).reverse

/-- Python `str.strip()` on a `String`. -/
def pyStrip (s : String) : String := ⟨pyStripL s.data⟩

/-- Python `re.sub(r"\s+", " ", s)` : collapse each maximal whitespace run
into a single space. -/
def normWsL : List Char → List Char
  | [] => []
  | [c] => if isPyWs c then [' '] else [c]
  | c1 :: c2 :: rest =>
    if isPyWs c1 && isPyWs c2 then normWsL (c2 :: rest)
    else (if isPyWs c1 then ' ' else c1) :: normWsL (c2 :: rest)

/-- Python `str.rstrip(".")` : drop trailing period characters. -/
def rstripDotL (l : List Char) : List Char :=
  (l.reverse.dropWhile (· = '.')).reverse

/-- Decidable test that `p` is a prefix of `l`. -/
def isPrefixL : List Char → List Char → Bool
  | [], _ => true
  | _ :: _, [] => false
  | a :: as, b :: bs => a = b && isPrefixL as bs

/-- Python substring containment `pat in hay`. -/
def hasSubL (pat : List Char) : List Char → Bool
  | [] => pat.isEmpty
  | c :: rest => isPrefixL pat (c :: rest) || hasSubL pat rest

/-- Python substring containment on `String`s. -/
def hasSub (pat hay : String) : Bool := hasSubL pat.data hay.data

/-- Python `s.split("by")` : split on each non-overlapping occurrence of the
separator `"by"`, scanning left to right. -/
def pySplitBy : List Char → List (List Char)
  | 'b' :: 'y' :: rest => [] :: pySplitBy rest
  | c :: rest =>
    (match pySplitBy rest with
     | h :: t => (c :: h) :: t
     | [] => [[c]])
  | [] => [[]]

/-- Occurrence test for the separator `"by"` (case sensitive). -/
def containsBy : List Char → Bool
  | 'b' :: 'y' :: _ => true
  | _ :: rest => containsBy rest
  | [] => false

/-- The suffix strictly after the last occurrence of `"by"`, assuming at
least one occurrence.  Used as an independent description of what
`s.split("by")[-1]` returns. -/
def afterLastBy : List Char → List Char
  | 'b' :: 'y' :: rest => if containsBy rest then afterLastBy rest else rest
  | _ :: rest => afterLastBy rest
  | [] => []

/-- Python `s.split(sep)[0]` for a non-empty separator: the segment before
the first occurrence of `sep`, or all of `s` when `sep` does not occur. -/
def beforeSubL (pat : List Char) : List Char → List Char
  | [] => []
  | c :: rest => if isPrefixL pat (c :: rest) then [] else c :: beforeSubL pat rest

/-- Python lexicographic comparison of strings (as used by `list.sort` on
timestamp strings). -/
def lexLtL : List Char → List Char → Bool
  | [], [] => false
  | [], _ :: _ => true
  | _ :: _, [] => false
  | a :: as, b :: bs => if a = b then lexLtL as bs else decide (a < b)

/-- `AdExtractor.extract_brand_from_text` (src/ad_extractors/base_extractor.py).
Returns `none` for falsy input; if `"by"` occurs in the lower-cased text it
splits the original text on the case-sensitive separator `"by"`, takes the
last segment, strips it, collapses inner whitespace and removes trailing
periods; otherwise returns `none`. -/
def extract_brand_from_text (text : String) : Option String :=
  if text = "" then none
  else if containsBy (lowerL text.data) then
    some ⟨rstripDotL (normWsL (pyStripL ((pySplitBy text.data).getLastD [])))⟩
  else none

/-- Characters allowed in a brand slug by the pattern `/pr/kpm-([a-z0-9-]+)`. -/
def isSlugChar (c : Char) : Bool :=
  ('a' ≤ c ∧ c ≤ 'z') || ('0' ≤ c ∧ c ≤ '9') || c = '-'

/-- Leftmost match of `re.search(r"/pr/kpm-([a-z0-9-]+)", href)` : scan for
the literal `/pr/kpm-` followed by a non-empty maximal run of slug
characters, which is the captured group. -/
def findSlug : List Char → Option (List Char)
  | [] => none
  | c :: rest =>
    if isPrefixL "/pr/kpm-".data (c :: rest) then
      let run := ((c :: rest).drop 8).takeWhile isSlugChar
      if run.isEmpty then findSlug rest else some run
    else findSlug rest

/-- Python `str.title()` on ASCII input: the first letter of each run of
cased characters is upper-cased, the rest lower-cased. -/
def titleL : List Char → Bool → List Char
  | [], _ => []
  | c :: rest, prevCased =>
    (if isAlphaC c then (if prevCased then toLowerC c else toUpperC c) else c)
      :: titleL rest (isAlphaC c)

/-- `AdExtractor.extract_brand_from_href` (src/ad_extractors/base_extractor.py).
Matches `/pr/kpm-<slug>`; the slug is de-hyphenated and title-cased. -/
def extract_brand_from_href (href : String) : Option String :=
  if href = "" then none
  else
    match findSlug href.data with
    | some slug => some ⟨titleL (slug.map (fun c => if c = '-' then ' ' else c)) false⟩
    | none => none

/-! ## The parsed DOM -/

/-- A parsed HTML node: an element with tag name, attributes (first
occurrence wins, as `html.parser` keeps the first duplicate attribute) and
children, or a text node. -/
inductive Node where
  | elem (tag : String) (attrs : List (String × String)) (children : List Node)
  | text (s : String)

/-- A parsed document: the list of top-level nodes. -/
abbrev Doc := List Node

mutual
/-- All nodes of a subtree in document (pre-)order, the root included. -/
def allNodes : Node → List Node
  | .text s => [.text s]
  | .elem t a c => .elem t a c :: allNodesL c
/-- All nodes of a forest in document order. -/
def allNodesL : List Node → List Node
  | [] => []
  | n :: ns => allNodes n ++ allNodesL ns
end

mutual
/-- BeautifulSoup `.text` / `get_text()` : concatenation of all descendant
text nodes. -/
def textL : Node → List Char
  | .text s => s.data
  | .elem _ _ c => textsL c
/-- Concatenated text of a forest. -/
def textsL : List Node → List Char
  | [] => []
  | n :: ns => textL n ++ textsL ns
end

mutual
/-- BeautifulSoup `get_text(strip=True)` : concatenation of the
individually stripped descendant text nodes. -/
def textStripL : Node → List Char
  | .text s => pyStripL s.data
  | .elem _ _ c => textsStripL c
/-- Stripped-and-concatenated text of a forest. -/
def textsStripL : List Node → List Char
  | [] => []
  | n :: ns => textStripL n ++ textsStripL ns
end

/-- BeautifulSoup `tag.get_text(strip=True)` as a `String`. -/
def textStrip (n : Node) : String := ⟨textStripL n⟩

/-- BeautifulSoup `tag.text` as a `String`. -/
def textOf (n : Node) : String := ⟨textL n⟩

/-- Attribute lookup on an attribute list (`tag.get(name)`). -/
def getAttr (attrs : List (String × String)) (name : String) : Option String :=
  (attrs.find? (fun p => p.1 = name)).map (·.2)

/-- `tag.get(name)` on a node (`none` on text nodes and missing attributes). -/
def attrOf (n : Node) (name : String) : Option String :=
  match n with
  | .elem _ attrs _ => getAttr attrs name
  | .text _ => none

/-- Python `str.split()` with no argument: maximal non-whitespace runs. -/
def splitWsL : List Char → List (List Char)
  | [] => []
  | c :: rest =>
    if isPyWs c then splitWsL rest
    else
      match rest with
      | [] => [[c]]
      | c2 :: _ =>
        if isPyWs c2 then [c] :: splitWsL rest
        else
          match splitWsL rest with
          | w :: ws => (c :: w) :: ws
          | [] => [[c]]

/-- The class list of an attribute set: the whitespace-split `class`
attribute, as BeautifulSoup stores multi-valued attributes. -/
def classListOf (attrs : List (String × String)) : List (List Char) :=
  splitWsL (((getAttr attrs "class").getD "").data)

/-- A CSS selector of the shapes used by the source: optional tag name,
required classes, exact attribute values (`[a="v"]`) and attribute substring
containment (`[a*="v"]`, which per CSS matches nothing when `v` is empty). -/
structure Sel where
  tag : Option String := none
  classes : List String := []
  attrEq : List (String × String) := []
  attrHas : List (String × String) := []

/-- Whether a node matches a selector (text nodes never match). -/
def matchesSel (s : Sel) (n : Node) : Bool :=
  match n with
  | .text _ => false
  | .elem t attrs _ =>
    (match s.tag with | none => true | some tg => t = tg) &&
    s.classes.all (fun c => (classListOf attrs).contains c.data) &&
    s.attrEq.all (fun p => getAttr attrs p.1 = some p.2) &&
    s.attrHas.all (fun p =>
      !p.2.data.isEmpty &&
      match getAttr attrs p.1 with
      | some w => hasSubL p.2.data w.data
      | none => false)

/-- `soup.select(sel)` : all matching elements of the document, in document
order (parsing a serialized fragment makes its root a matchable element). -/
def docSelect (doc : Doc) (s : Sel) : List Node :=
  (allNodesL doc).filter (matchesSel s)

/-- `soup.select_one(sel)`. -/
def docSelectOne (doc : Doc) (s : Sel) : Option Node :=
  (docSelect doc s).head?

/-- `tag.select(sel)` : matching descendants of an element (the element
itself is excluded, per CSS scoping). -/
def elSelect (n : Node) (s : Sel) : List Node :=
  match n with
  | .elem _ _ c => (allNodesL c).filter (matchesSel s)
  | .text _ => []

/-- `tag.select_one(sel)`. -/
def elSelectOne (n : Node) (s : Sel) : Option Node :=
  (elSelect n s).head?

/-- `AdExtractor.extract_text` : `element.select_one(selector)` followed by
`.text.strip()`, defaulting to `None` when the selector misses. -/
def extract_text (el : Node) (s : Sel) : Option String :=
  (elSelectOne el s).map (fun n => ⟨pyStripL (textL n)⟩)

/-- `AdExtractor.extract_attribute` : `element.select_one(selector)` followed
by `.get(attribute, default)`, defaulting to `None`. -/
def extract_attribute (el : Node) (s : Sel) (attr : String) : Option String :=
  (elSelectOne el s).bind (fun n => attrOf n attr)

/-! ## Ad records and the extractors

The extractors return Python dicts; we model them as one record type with
optional fields (`none` standing for an absent key or a `None` value).
Image-saving bookkeeping fields (`image_path`, `toa_image_path`,
`skyscraper_image_path`, `carousel_image_path`, `capture_entire_carousel`,
`html`) are side-channel output of the I/O collaborators and are omitted;
we model the `client = None` configuration under which the code skips that
bookkeeping. -/

/-- One carousel product (`ad["products"]` entries). -/
structure ProductRef where
  href : String
  title : Option String := none
  image_url : Option String := none
  price : Option String := none
deriving DecidableEq, Repr

/-- The normalized output of one extraction. -/
structure AdRecord where
  type : String
  message : Option String := none
  description : Option String := none
  cta : Option String := none
  image_url : Option String := none
  brand : Option String := none
  href : Option String := none
  header : Option String := none
  subheader : Option String := none
  products : List ProductRef := []
deriving DecidableEq, Repr

/-- Python truthiness of an optional string (`None` and `""` are falsy). -/
def truthyS (o : Option String) : Bool :=
  match o with
  | some s => !s.data.isEmpty
  | none => false

/-- Prepends the site origin to root-relative URLs (`if url.startswith("/")`). -/
def resolveUrl (u : String) : String :=
  if isPrefixL "/".data u.data then ⟨"https://www.kroger.com".data ++ u.data⟩ else u

/-- Selector `div[data-testid="StandardTOA"]` (also the attribute match of
`soup.find("div", attrs)` in the TOA extractor). -/
def selStandardTOA : Sel := { tag := some "div", attrEq := [("data-testid", "StandardTOA")] }

/-- Selector `.espot-header`. -/
def selEspotHeader : Sel := { classes := ["espot-header"] }

/-- Selector `.espot-subText`. -/
def selEspotSubText : Sel := { classes := ["espot-subText"] }

/-- Selector `.espot-linkText`. -/
def selEspotLinkText : Sel := { classes := ["espot-linkText"] }

/-- Selector `img.espot-image`. -/
def selEspotImage : Sel := { tag := some "img", classes := ["espot-image"] }

/-- Selector `a.espot-link`. -/
def selEspotLink : Sel := { tag := some "a", classes := ["espot-link"] }

/-- `TOAExtractor.extract` (src/ad_extractors/toa_extractor.py): finds the
`StandardTOA` div, then best-effort extracts message, description, CTA,
image (resolving root-relative URLs), brand (alt-text first, href-slug only
when no brand was set) and href. -/
def toaExtract (doc : Doc) : Option AdRecord :=
  match docSelectOne doc selStandardTOA with
  | none => none
  | some toa_div =>
    let message := extract_text toa_div selEspotHeader
    let description := extract_text toa_div selEspotSubText
    let cta := extract_text toa_div selEspotLinkText
    let img_url0 := extract_attribute toa_div selEspotImage "src"
    let image_url := if truthyS img_url0 then img_url0.map resolveUrl else none
    let brandAlt :=
      if truthyS img_url0 then
        let alt := extract_attribute toa_div selEspotImage "alt"
        if truthyS alt then
          let b := alt.bind extract_brand_from_text
          if truthyS b then b else none
        else none
      else none
    let href0 := extract_attribute toa_div selEspotLink "href"
    let href := if truthyS href0 then href0 else none
    let brand :=
      match brandAlt with
      | some b => some b
      | none =>
        match href with
        | some h =>
          let b := extract_brand_from_href h
          if truthyS b then b else none
        | none => none
    some { type := "TOA", message, description, cta, image_url, brand, href }

/-- Selector `div[data-testid*="skyscraper"]`. -/
def selSkyTestid : Sel := { tag := some "div", attrHas := [("data-testid", "skyscraper")] }

/-- Selector `div.amp-container`. -/
def selAmp : Sel := { tag := some "div", classes := ["amp-container"] }

/-- Selector for a bare tag name. -/
def tagSel (t : String) : Sel := { tag := some t }

/-- Selector `.brand-name`. -/
def selBrandName : Sel := { classes := ["brand-name"] }

/-- Selector `[class*="brand"]`. -/
def selClassHasBrand : Sel := { attrHas := [("class", "brand")] }

/-- First `soup.select_one` hit of two selectors (Python `a or b` where both
operands are found tags or `None`). -/
def selOneOr (doc : Doc) (s1 s2 : Sel) : Option Node :=
  match docSelectOne doc s1 with
  | some n => some n
  | none => docSelectOne doc s2

/-- `SkyscraperExtractor.extract` (src/ad_extractors/skyscraper_extractor.py):
requires a `div[data-testid*="skyscraper"]` or `div.amp-container`, then
best-effort takes the first `img` and first `a` anywhere (resolving
root-relative URLs), the first `h2` or `.espot-header` as message, the first
`.espot-subText` or `span` as description, `.espot-linkText` as CTA, and
`.brand-name` or `[class*="brand"]` as brand. -/
def skyscraperExtract (doc : Doc) : Option AdRecord :=
  if (docSelectOne doc selSkyTestid).isNone && (docSelectOne doc selAmp).isNone then none
  else
    let image_url :=
      match docSelectOne doc (tagSel "img") with
      | some img =>
        let src := attrOf img "src"
        if truthyS src then src.map resolveUrl else none
      | none => none
    let href :=
      match docSelectOne doc (tagSel "a") with
      | some link =>
        let h := attrOf link "href"
        if truthyS h then h.map resolveUrl else none
      | none => none
    let message := (selOneOr doc (tagSel "h2") selEspotHeader).map textStrip
    let description := (selOneOr doc selEspotSubText (tagSel "span")).map textStrip
    let cta := (docSelectOne doc selEspotLinkText).map textStrip
    let brand := (selOneOr doc selBrandName selClassHasBrand).map textStrip
    some { type := "Skyscraper", message, description, cta, image_url, brand, href }

/-- Selector `div.CuratedCarousel.py-32.bg-accent-more-subtle`. -/
def selCarousel1 : Sel :=
  { tag := some "div", classes := ["CuratedCarousel", "py-32", "bg-accent-more-subtle"] }

/-- Selector `div.CuratedCarousel`. -/
def selCarousel2 : Sel := { tag := some "div", classes := ["CuratedCarousel"] }

/-- Selector `div[class*="Carousel"]`. -/
def selCarousel3 : Sel := { tag := some "div", attrHas := [("class", "Carousel")] }

/-- Selector `div[data-testid*="carousel"]`. -/
def selCarousel4 : Sel := { tag := some "div", attrHas := [("data-testid", "carousel")] }

/-- The carousel container lookup: the `or`-chain of the four selectors. -/
def carouselContainer (doc : Doc) : Option Node :=
  match docSelectOne doc selCarousel1 with
  | some n => some n
  | none =>
    match docSelectOne doc selCarousel2 with
    | some n => some n
    | none =>
      match docSelectOne doc selCarousel3 with
      | some n => some n
      | none => docSelectOne doc selCarousel4

/-- Selector `a.kds-Link[aria-label*="title"]`. -/
def selProductLink : Sel :=
  { tag := some "a", classes := ["kds-Link"], attrHas := [("aria-label", "title")] }

/-- Selector `span[data-testid="cart-page-item-description"]`. -/
def selProductTitle : Sel :=
  { tag := some "span", attrEq := [("data-testid", "cart-page-item-description")] }

/-- Selector `[data-testid="cart-page-item-unit-price"]`. -/
def selUnitPrice : Sel := { attrEq := [("data-testid", "cart-page-item-unit-price")] }

/-- Selector `.kds-Price`. -/
def selKdsPrice : Sel := { classes := ["kds-Price"] }

/-- Selector `img[alt*="<t>"]` built dynamically from a product title. -/
def selImgAltHas (t : String) : Sel := { tag := some "img", attrHas := [("alt", t)] }

/-- Python truthiness of a found tag: a BeautifulSoup `Tag` object is always
truthy, so `if carousel_element:` on a found element is always true. -/
def truthyTag (_ : Node) : Bool := true

/-- The per-product-link body of `CarouselExtractor.extract` : href (with
`""` default), title from the dedicated span else from the `aria-label`
split on `"title"`, image from a descendant `img` else a document-wide
`img[alt*=title]` search, price from the document-wide price selectors.
Returns the product only when its title is truthy (the `if product.get('title')`
append guard). -/
def carouselProduct (doc : Doc) (link : Node) : Option ProductRef :=
  let href := (attrOf link "href").getD ""
  let title : Option String :=
    match elSelectOne link selProductTitle with
    | some sp => some (textStrip sp)
    | none =>
      let al := attrOf link "aria-label"
      if truthyS al then
        let a := (al.getD "")
        if hasSub "title" a then some ⟨pyStripL (beforeSubL "title".data a.data)⟩ else none
      else none
  let image_url :=
    match
      (match elSelectOne link (tagSel "img") with
       | some img => some img
       | none => docSelectOne doc (selImgAltHas ((title.getD "")))) with
    | some img =>
      let src := attrOf img "src"
      if truthyS src then src else none
    | none => none
  let price := (selOneOr doc selUnitPrice selKdsPrice).map textStrip
  if truthyS title then some { href, title, image_url, price } else none

/-- `CarouselExtractor.extract` (src/ad_extractors/carousel_extractor.py):
requires a carousel container, collects the products of every
`a.kds-Link[aria-label*="title"]` link, and returns the record when
`ad["products"] or carousel_element` is truthy — the container is a found
tag there, so a matched container always yields a record, products or not. -/
def carouselExtract (doc : Doc) : Option AdRecord :=
  match carouselContainer doc with
  | none => none
  | some ce =>
    let header := (docSelectOne doc (Sel.mk none ["CuratedCarousel__header"] [] [])).map textStrip
    let subheader := (docSelectOne doc (Sel.mk none ["CuratedCarousel__subheader"] [] [])).map textStrip
    let products := (docSelect doc selProductLink).filterMap (carouselProduct doc)
    if !products.isEmpty || truthyTag ce then
      some { type := "CuratedCarousel", header, subheader, products }
    else none

/-! ## The placement classifier (`extract_ads_from_html`, src/kroger_ad_core.py) -/

/-- Python `xs or ys` on candidate lists: the left list unless it is empty. -/
def pyOrL (a b : List Node) : List Node := if a.isEmpty then b else a

/-- Selector `div.Standard-TOA`. -/
def selStandardTOAClass : Sel := { tag := some "div", classes := ["Standard-TOA"] }

/-- Selector `div[class*="TOA"]`. -/
def selClassHasTOA : Sel := { tag := some "div", attrHas := [("class", "TOA")] }

/-- TOA candidate selection: primary `div[data-testid="StandardTOA"]`, then
`div.Standard-TOA`, then `div[class*="TOA"]`, each consulted only when the
previous one matched nothing. -/
def toaCandidates (doc : Doc) : List Node :=
  let l1 := docSelect doc selStandardTOA
  let l2 := if l1.isEmpty then docSelect doc selStandardTOAClass else l1
  if l2.isEmpty then docSelect doc selClassHasTOA else l2

/-- Selector `div[data-testid="monetization/search-page-top"]`. -/
def selMonetizationTop : Sel :=
  { tag := some "div", attrEq := [("data-testid", "monetization/search-page-top")] }

/-- Selector `div[data-testid="SkyscraperTOA"]`. -/
def selSkyscraperTOA : Sel := { tag := some "div", attrEq := [("data-testid", "SkyscraperTOA")] }

/-- Selector `div[data-testid="monetization/search-skyscraper-top"]`. -/
def selSkyFallback1 : Sel :=
  { tag := some "div", attrEq := [("data-testid", "monetization/search-skyscraper-top")] }

/-- Selector `div.amp-container[data-testid*="skyscraper"]`. -/
def selSkyFallback2 : Sel :=
  { tag := some "div", classes := ["amp-container"], attrHas := [("data-testid", "skyscraper")] }

/-- The Standard-Banner exclusion test used by every skyscraper filter:
keep a div unless `div.get("data-testid") == "StandardTOA"`. -/
def notStdTOA (n : Node) : Bool := !(attrOf n "data-testid" = some "StandardTOA")

/-- The primary skyscraper loop: skip each div whose `data-testid` is
`StandardTOA` and log the skip; keep the rest in order. -/
def skyPrimaryScan : List Node → List Node × List String
  | [] => ([], [])
  | d :: ds =>
    let r := skyPrimaryScan ds
    if attrOf d "data-testid" = some "StandardTOA" then
      (r.1, "Skipping skyscraper div misclassified as StandardTOA to avoid double-counting" :: r.2)
    else (d :: r.1, r.2)

/-- Skyscraper candidate selection with its exclusion log: the primary
selector (with the logging skip-loop), extended by the filtered hybrid
`SkyscraperTOA` matches, then the three silently-filtered fallback
selectors, each consulted only while the list so far is empty. -/
def skyscraperCandidatesLog (doc : Doc) : List Node × List String :=
  let prim := skyPrimaryScan (docSelect doc selMonetizationTop)
  let hyb0 := docSelect doc selSkyscraperTOA
  let s0 :=
    if !hyb0.isEmpty then
      let hyb := hyb0.filter notStdTOA
      if !hyb.isEmpty then prim.1 ++ hyb else prim.1
    else prim.1
  let s1 := if s0.isEmpty then (docSelect doc selSkyFallback1).filter notStdTOA else s0
  let s2 := if s1.isEmpty then (docSelect doc selSkyFallback2).filter notStdTOA else s1
  let s3 := if s2.isEmpty then (docSelect doc selAmp).filter notStdTOA else s2
  (s3, prim.2)

/-- Skyscraper candidate elements. -/
def skyscraperCandidates (doc : Doc) : List Node := (skyscraperCandidatesLog doc).1

/-- Carousel candidate selection: the `or`-chain over the four carousel
selectors applied to the whole page. -/
def carouselCandidates (doc : Doc) : List Node :=
  pyOrL (docSelect doc selCarousel1)
    (pyOrL (docSelect doc selCarousel2)
      (pyOrL (docSelect doc selCarousel3) (docSelect doc selCarousel4)))

/-- The basic ad structure built inline when `SkyscraperExtractor.extract`
returns `None` for a candidate div: type `Skyscraper` plus best-effort
image, link, message, description and CTA taken from the div's descendants,
with no URL resolution. -/
def skyFallbackRecord (div : Node) : AdRecord :=
  let image_url :=
    match elSelectOne div (tagSel "img") with
    | some img =>
      let src := attrOf img "src"
      if truthyS src then src else none
    | none => none
  let href :=
    match elSelectOne div (tagSel "a") with
    | some link =>
      let h := attrOf link "href"
      if truthyS h then h else none
    | none => none
  let message :=
    (match elSelectOne div (tagSel "h2") with
     | some t => some t
     | none => elSelectOne div selEspotHeader).map textStrip
  let description :=
    (match elSelectOne div selEspotSubText with
     | some t => some t
     | none => elSelectOne div (tagSel "span")).map textStrip
  let cta := (elSelectOne div selEspotLinkText).map textStrip
  { type := "Skyscraper", message, description, cta, image_url, href }

/-- The TOA loop of `extract_ads_from_html` : run the TOA extractor on each
candidate's serialized fragment, keeping the truthy results. -/
def toaResults (doc : Doc) : List AdRecord :=
  (toaCandidates doc).filterMap (fun d => toaExtract [d])

/-- The Skyscraper loop of `extract_ads_from_html` : run the extractor on
each candidate's serialized fragment and, when it returns `None`, fall back
to the inline basic record — one appended record per candidate. -/
def skyscraperResults (doc : Doc) : List AdRecord :=
  (skyscraperCandidates doc).map (fun d => (skyscraperExtract [d]).getD (skyFallbackRecord d))

/-- The CuratedCarousel loop of `extract_ads_from_html` : run the extractor
on each candidate's serialized fragment, keeping the truthy results. -/
def carouselResults (doc : Doc) : List AdRecord :=
  (carouselCandidates doc).filterMap (fun d => carouselExtract [d])

/-- `extract_ads_from_html` : iterate the registered extractors (TOA,
Skyscraper, CuratedCarousel, in registration order) over their candidate
lists and concatenate the page's records. -/
def extract_ads_from_html (doc : Doc) : List AdRecord :=
  toaResults doc ++ skyscraperResults doc ++ carouselResults doc

/-! ## The extractor registry (src/ad_extractors/__init__.py) -/

/-- The extractor classes that the package can register. -/
inductive ExtractorClass where
  | TOAExtractor
  | SkyscraperExtractor
  | CarouselExtractor
deriving DecidableEq, Repr

/-- The module-level `EXTRACTORS` dict, as an insertion-ordered association
list (Python dicts preserve insertion order and update keys in place). -/
abbrev Registry := List (String × ExtractorClass)

/-- `register_extractor(ad_type, extractor_class)` : dict assignment —
replaces the value of an existing key in place, appends a new key. -/
def register_extractor (reg : Registry) (ad_type : String) (cls : ExtractorClass) : Registry :=
  match reg with
  | [] => [(ad_type, cls)]
  | (k, v) :: rest =>
    if k = ad_type then (ad_type, cls) :: rest
    else (k, v) :: register_extractor rest ad_type cls

/-- `get_extractor(ad_type)` : `EXTRACTORS.get(ad_type)` — `None` when the
name is unregistered. -/
def get_extractor (reg : Registry) (ad_type : String) : Option ExtractorClass :=
  match reg with
  | [] => none
  | (k, v) :: rest => if k = ad_type then some v else get_extractor rest ad_type

/-- The registry after the three module imports in `kroger_ad_core`. -/
def initialRegistry : Registry :=
  register_extractor
    (register_extractor
      (register_extractor [] "TOA" .TOAExtractor)
      "Skyscraper" .SkyscraperExtractor)
    "CuratedCarousel" .CarouselExtractor

/-! ## The result aggregator (src/process_saved_html.py)

A `PageResult` is the dict returned by `extract_ads_from_html_file`; the
file-system side (reading HTML, JSON persistence) is modelled as explicit
state passing: the persisted day file is the list it stores, so re-loading
after a save yields exactly the saved list.  Each input HTML file is a name,
a modification time and the `Option PageResult` that
`extract_ads_from_html_file` produced for it (`none` when extraction
failed). -/

/-- One full-page scrape result. -/
structure PageResult where
  keyword : Option String := none
  search_term : Option String := none
  timestamp : String := ""
  ads : List AdRecord := []
  count : Nat := 0
  source_file : String := ""
deriving DecidableEq, Repr

/-- An input HTML file as the aggregator sees it. -/
structure HtmlFile where
  name : String
  mtime : Nat
  extracted : Option PageResult
deriving DecidableEq, Repr

/-- Python `str.replace(pat, rep)` : replace every non-overlapping
occurrence, scanning left to right. -/
def replaceAllGo (pat rep : List Char) : Nat → List Char → List Char
  | _, [] => []
  | 0, l => l
  | fuel + 1, c :: rest =>
    if isPrefixL pat (c :: rest) then
      rep ++ replaceAllGo pat rep fuel (rest.drop (pat.length - 1))
    else c :: replaceAllGo pat rep fuel rest

/-- Python `str.replace(pat, rep)` for a non-empty pattern; each step of the
scan consumes at least one character, so the input length is enough fuel. -/
def replaceAllL (pat rep l : List Char) : List Char :=
  if pat.isEmpty then l else replaceAllGo pat rep l.length l

/-- The filename fallback for a missing keyword:
`filename.replace("search_results_", "").split("_")[0]`. -/
def fallbackTerm (name : String) : String :=
  ⟨beforeSubL "_".data (replaceAllL "search_results_".data [] name.data)⟩

/-- The search term the aggregator groups a result under: the result's
keyword when truthy, else the filename fallback. -/
def searchTermOf (f : HtmlFile) (r : PageResult) : String :=
  match r.keyword with
  | some k => if k = "" then fallbackTerm f.name else k
  | none => fallbackTerm f.name

/-- The extracted `(search_term, result)` pairs of a batch, in file order,
skipping files whose extraction failed. -/
def extractPairs (files : List HtmlFile) : List (String × PageResult) :=
  files.filterMap (fun f => f.extracted.map (fun r => (searchTermOf f r, r)))

/-- Appending one result to the `search_term_files` grouping dict: append to
the group of an existing key, else insert a new group at the end. -/
def addToGroup (k : String) (r : PageResult) :
    List (String × List PageResult) → List (String × List PageResult)
  | [] => [(k, [r])]
  | (k2, rs) :: gs =>
    if k2 = k then (k2, rs ++ [r]) :: gs else (k2, rs) :: addToGroup k r gs

/-- The insertion-ordered grouping of a batch by search term. -/
def groupPairs (pairs : List (String × PageResult)) : List (String × List PageResult) :=
  pairs.foldl (fun gs p => addToGroup p.1 p.2 gs) []

/-- One insertion step of the stable descending sort on timestamps
(`results_list.sort(key=lambda x: x.get("timestamp", ""), reverse=True)`). -/
def insertDesc (x : PageResult) : List PageResult → List PageResult
  | [] => [x]
  | y :: ys =>
    if lexLtL y.timestamp.data x.timestamp.data then x :: y :: ys
    else y :: insertDesc x ys

/-- Stable sort of one group, newest timestamp first. -/
def sortDesc (rs : List PageResult) : List PageResult :=
  rs.foldl (fun acc x => insertDesc x acc) [] |>.reverse

/-- Normalising one grouped result before appending it to the day file:
`result["keyword"] = search_term; result["search_term"] = search_term`. -/
def setTerm (k : String) (r : PageResult) : PageResult :=
  { r with keyword := some k, search_term := some k }

/-- The block of page results one `--all` run appends to the day file:
every group's results, each group sorted newest-first, keywords normalised —
all of them, not just the latest. -/
def newEntries (files : List HtmlFile) : List PageResult :=
  (groupPairs (extractPairs files)).foldl
    (fun acc g => acc ++ (sortDesc g.2).map (setTerm g.1)) []

/-- `process_all_html_files` on already-extracted inputs: load the existing
day collection and append every processed result to it. -/
def process_all_html_files (files : List HtmlFile) (daily : List PageResult) :
    List PageResult :=
  (groupPairs (extractPairs files)).foldl
    (fun acc g => acc ++ (sortDesc g.2).map (setTerm g.1)) daily

/-- Python `max(files, key=os.path.getmtime)` : the first file of maximal
modification time. -/
def maxByMtime (f : HtmlFile) : List HtmlFile → HtmlFile
  | [] => f
  | g :: gs => if g.mtime > f.mtime then maxByMtime g gs else maxByMtime f gs

/-- `process_latest_html_file` on already-extracted inputs: fail on an empty
directory, pick the single newest HTML file by modification time, fail if
its extraction failed, else append its one result to the day collection. -/
def process_latest_html_file (files : List HtmlFile) (daily : List PageResult) :
    Option (List PageResult) :=
  match files with
  | [] => none
  | f :: fs =>
    match (maxByMtime f fs).extracted with
    | none => none
    | some r => some (daily ++ [r])

/-- The `(search_term, result)` pairs a grouping holds, group by group in
order — the observable content of the `search_term_files` dict. -/
def pairsOfGroups (gs : List (String × List PageResult)) : List (String × PageResult) :=
  (gs.map (fun g => g.2.map (fun r => (g.1, r)))).flatten

/-! ## Specification-level combinators and concrete example inputs -/

/-- The selector-fallback-chain combinator of the specification: the first
strategy result that is non-empty, or the empty list when every strategy
matched nothing. -/
def firstNonempty : List (List Node) → List Node
  | [] => []
  | l :: ls => if l.isEmpty then firstNonempty ls else l

/-- The first (primary plus filtered hybrid) stage of the skyscraper
selector chain, as one strategy. -/
def skyStage0 (doc : Doc) : List Node :=
  (skyPrimaryScan (docSelect doc selMonetizationTop)).1
    ++ (docSelect doc selSkyscraperTOA).filter notStdTOA

/-- The specification's reading of `brandFromAltText` : a case-insensitive
search for `"by"`; when it occurs, the result is everything after the last
case-insensitive occurrence, trimmed, whitespace-normalized, with trailing
periods stripped.  (Modelled from the claim's words only, for comparison
with `extract_brand_from_text`.) -/
def brandFromAltTextClaimed (text : String) : Option String :=
  if containsBy (lowerL text.data) then
    let m := (afterLastBy (lowerL text.data)).length
    some ⟨rstripDotL (normWsL (pyStripL (text.data.drop (text.data.length - m))))⟩
  else none

/-- A complete StandardTOA fragment: header, subtext, CTA, image with a
root-relative source and a ``by``-pattern alt text, and a link whose href
carries a conflicting brand slug. -/
def toaAcmeDoc : Doc :=
  [.elem "div" [("data-testid", "StandardTOA")]
    [ .elem "div" [("class", "espot-header")] [.text " Save on Snacks "]
    , .elem "div" [("class", "espot-subText")] [.text "Limited time"]
    , .elem "span" [("class", "espot-linkText")] [.text "Shop Now"]
    , .elem "img" [("class", "espot-image"), ("src", "/img/a.png"),
        ("alt", "Organic snacks by Acme Foods.")] []
    , .elem "a" [("class", "espot-link"), ("href", "/pr/kpm-other-brand")] [.text "go"] ]]

/-- A matched carousel container with no product links at all. -/
def carouselEmptyDoc : Doc := [.elem "div" [("class", "CuratedCarousel")] []]

/-- A bare StandardTOA container with no sub-elements. -/
def toaBareDoc : Doc := [.elem "div" [("data-testid", "StandardTOA")] []]

/-- A bare skyscraper container with no sub-elements. -/
def skyBareDoc : Doc := [.elem "div" [("class", "amp-container")] []]

/-- A carousel whose one product link has a title-bearing aria-label and an
image with a root-relative (non-absolute) source URL. -/
def carouselRelImgDoc : Doc :=
  [.elem "div" [("class", "CuratedCarousel")]
    [ .elem "a" [("class", "kds-Link"), ("aria-label", "Veggie Chips title text"),
        ("href", "/p/1")]
      [ .elem "img" [("src", "/images/x.png")] [] ] ]]

/-- The product record the carousel extractor builds for
`carouselRelImgDoc` : its image URL is persisted verbatim, still relative. -/
def veggieChipsProduct : ProductRef :=
  { href := "/p/1", title := some "Veggie Chips", image_url := some "/images/x.png" }

/-- A div that matches only the loose class-based skyscraper fallback
selector while carrying the Standard-Banner marker attribute. -/
def ampStdTOADiv : Node :=
  .elem "div" [("class", "amp-container"), ("data-testid", "StandardTOA")] []

/-- A page holding only `ampStdTOADiv`. -/
def ampStdTOADoc : Doc := [ampStdTOADiv]

/-- A genuine Standard-Banner div next to a genuine primary skyscraper div. -/
def stdTOADiv : Node := .elem "div" [("data-testid", "StandardTOA")] []

/-- A primary skyscraper candidate div whose extractor call fails (its
`data-testid` does not contain the lower-case token `skyscraper` and it has
no `amp-container` class), carrying a root-relative image. -/
def monetizationDiv : Node :=
  .elem "div" [("data-testid", "monetization/search-page-top")]
    [.elem "img" [("src", "/s.png")] []]

/-- A page holding a Standard-Banner div and a primary skyscraper div. -/
def mixedPageDoc : Doc := [stdTOADiv, monetizationDiv]

/-- A TOA fragment whose image source is root-relative. -/
def toaRelImgDoc : Doc :=
  [.elem "div" [("data-testid", "StandardTOA")]
    [.elem "img" [("class", "espot-image"), ("src", "/x.png")] []]]

/-- An extracted page result for the keyword `a`. -/
def pageA : PageResult :=
  { keyword := some "a", search_term := some "a", timestamp := "2025-01-01 08:00:00",
    count := 1, source_file := "search_results_a_2025-01-01_08-00-00.html" }

/-- An extracted page result for the keyword `b`. -/
def pageB : PageResult :=
  { keyword := some "b", search_term := some "b", timestamp := "2025-01-01 09:00:00",
    count := 2, source_file := "search_results_b_2025-01-01_09-00-00.html" }

/-- The HTML file behind `pageA`, the older of the two. -/
def fileA : HtmlFile :=
  { name := "search_results_a_2025-01-01_08-00-00.html", mtime := 1, extracted := some pageA }

/-- The HTML file behind `pageB`, the newer of the two. -/
def fileB : HtmlFile :=
  { name := "search_results_b_2025-01-01_09-00-00.html", mtime := 2, extracted := some pageB }

/-! ## Helper lemmas -/

lemma truthyS_some {u : String} (hu : u ≠ "") : truthyS (some u) = true := by
  have : u.data ≠ [] := fun h => hu (by cases u; simp_all)
  simp [truthyS, List.isEmpty_iff, this]

lemma toaCandidates_of_mem {doc : Doc} {div : Node}
    (h : div ∈ docSelect doc selStandardTOA) : div ∈ toaCandidates doc := by
  unfold toaCandidates
  have : ¬ (docSelect doc selStandardTOA).isEmpty := by
    cases hh : docSelect doc selStandardTOA with
    | nil => simp [hh] at h
    | cons a l => simp [hh]
  simp [this]
  exact h

lemma carouselExtract_isSome_eq (doc : Doc) :
    (carouselExtract doc).isSome = (carouselContainer doc).isSome := by
  unfold carouselExtract
  cases h : carouselContainer doc <;> simp [truthyTag]

/-! ## Claim C9 : the extractor registry -/

lemma register_twice (reg : Registry) (k : String) (f1 f2 : ExtractorClass) :
    register_extractor (register_extractor reg k f1) k f2 = register_extractor reg k f2 := by
  induction reg with
  | nil => simp [register_extractor]
  | cons p rest ih =>
    obtain ⟨k2, v⟩ := p
    by_cases h : k2 = k
    · subst h; simp [register_extractor]
    · simp [register_extractor, h, ih]

lemma get_register_self (reg : Registry) (k : String) (f : ExtractorClass) :
    get_extractor (register_extractor reg k f) k = some f := by
  induction reg with
  | nil => simp [register_extractor, get_extractor]
  | cons p rest ih =>
    obtain ⟨k2, v⟩ := p
    by_cases h : k2 = k
    · subst h; simp [register_extractor, get_extractor]
    · simp [register_extractor, get_extractor, h, ih]

/-- C9 : registering an extractor factory twice under the same `typeName`
replaces the prior factory (last-registration-wins, both as registry states
and through lookup), and looking up an unregistered `typeName` with
`get_extractor` returns `None` rather than raising. -/
theorem c9_registry_last_wins_and_missing_none :
    (∀ (reg : Registry) (k : String) (f1 f2 : ExtractorClass),
       register_extractor (register_extractor reg k f1) k f2 = register_extractor reg k f2
       ∧ get_extractor (register_extractor (register_extractor reg k f1) k f2) k = some f2)
    ∧ (∀ (reg : Registry) (k : String), (∀ p ∈ reg, p.1 ≠ k) →
       get_extractor reg k = none) := by
  constructor
  · intro reg k f1 f2
    refine ⟨register_twice reg k f1 f2, ?_⟩
    rw [register_twice reg k f1 f2]
    exact get_register_self reg k f2
  · intro reg k h
    induction reg with
    | nil => rfl
    | cons p rest ih =>
      have h1 : p.1 ≠ k := h p (List.mem_cons_self p rest)
      obtain ⟨k2, v⟩ := p
      simp only [get_extractor]
      simp only at h1
      simp [h1]
      exact ih (fun q hq => h q (List.mem_cons_of_mem _ hq))

/-- Witness for C9 at the concrete registry built by the package imports. -/
theorem c9_witness :
    (∀ p ∈ initialRegistry, p.1 ≠ "Banana")
    ∧ get_extractor
        (register_extractor (register_extractor initialRegistry "TOA" .SkyscraperExtractor)
          "TOA" .TOAExtractor) "TOA" = some .TOAExtractor
    ∧ get_extractor initialRegistry "Banana" = none :=
  ⟨by decide,
   (c9_registry_last_wins_and_missing_none.1 initialRegistry "TOA"
     .SkyscraperExtractor .TOAExtractor).2,
   c9_registry_last_wins_and_missing_none.2 initialRegistry "Banana" (by decide)⟩

/-! ## Claim C1 : carousel with zero products -/

/-- Counterexample to C1 : on a matched carousel container with no usable
products the extractor returns an ad record with an empty product list —
not `None` as the claim states (`if ad['products'] or carousel_element:`
is always true once a container matched; the trailing `return None` is
unreachable). -/
theorem c1_counterexample :
    carouselExtract carouselEmptyDoc
        = some { type := "CuratedCarousel", header := none, subheader := none, products := [] }
    ∧ carouselExtract carouselEmptyDoc ≠ none := by
  refine ⟨by decide, by decide⟩

/-- C1 amended : `CarouselExtractor.extract` returns `NotFound` exactly when
no carousel container is matched; a matched container always yields a
record, even when zero product links have extractable titles (the record
then carries an empty `products` list). -/
theorem c1_amended_notfound_iff_no_container (doc : Doc) :
    (carouselExtract doc).isSome = (carouselContainer doc).isSome :=
  carouselExtract_isSome_eq doc

/-! ## Claim C5 : extraction is total and per-field best-effort -/

/-- C5 : each embedded extractor is a total function on arbitrary parsed
documents — malformed or incomplete fragments included — and a matched
container always produces a record (`some`): a missing sub-element yields
an absent field, never a whole-record failure. -/
theorem c5_extract_total_best_effort (doc : Doc) :
    ((docSelectOne doc selStandardTOA).isSome → (toaExtract doc).isSome)
    ∧ (((docSelectOne doc selSkyTestid).isSome ∨ (docSelectOne doc selAmp).isSome) →
        (skyscraperExtract doc).isSome)
    ∧ ((carouselContainer doc).isSome → (carouselExtract doc).isSome) := by
  refine ⟨?_, ?_, ?_⟩
  · intro h
    cases hh : docSelectOne doc selStandardTOA with
    | none => rw [hh] at h; simp at h
    | some d => simp [toaExtract, hh]
  · intro h
    unfold skyscraperExtract
    have : ((docSelectOne doc selSkyTestid).isNone && (docSelectOne doc selAmp).isNone) = false := by
      rcases h with h | h <;> cases hh : docSelectOne doc selSkyTestid <;>
        cases hh2 : docSelectOne doc selAmp <;> simp_all
    simp [this]
  · intro h
    rw [carouselExtract_isSome_eq doc]
    exact h

/-- Witness for C5 : bare containers with every sub-element missing still
produce records. -/
theorem c5_witness :
    (docSelectOne toaBareDoc selStandardTOA).isSome
    ∧ (toaExtract toaBareDoc).isSome
    ∧ ((docSelectOne skyBareDoc selSkyTestid).isSome ∨ (docSelectOne skyBareDoc selAmp).isSome)
    ∧ (skyscraperExtract skyBareDoc).isSome
    ∧ (carouselContainer carouselEmptyDoc).isSome
    ∧ (carouselExtract carouselEmptyDoc).isSome :=
  ⟨rfl, (c5_extract_total_best_effort toaBareDoc).1 rfl,
   Or.inr rfl, (c5_extract_total_best_effort skyBareDoc).2.1 (Or.inr rfl),
   rfl, (c5_extract_total_best_effort carouselEmptyDoc).2.2 rfl⟩

/-! ## Claim C6 : image URLs and base-origin resolution -/

lemma resolveUrl_not_rel (u : String) : isPrefixL "/".data (resolveUrl u).data = false := by
  unfold resolveUrl
  by_cases h : isPrefixL "/".data u.data = true
  · rw [if_pos h]
    rfl
  · rw [if_neg h]
    simpa using h

/-- Counterexample to C6 : a carousel product's image URL is persisted
verbatim — here a root-relative `/images/x.png` — with no resolution
against the site origin, so a persisted image URL can be relative and
non-empty. -/
theorem c6_counterexample :
    carouselExtract carouselRelImgDoc
        = some { type := "CuratedCarousel", products := [veggieChipsProduct] }
    ∧ veggieChipsProduct.image_url = some "/images/x.png"
    ∧ isPrefixL "/".data "/images/x.png".data = true := by
  refine ⟨by decide, by decide, by decide⟩

/-- C6 amended : records returned by the TOA and Skyscraper extractors have
their root-relative image URLs resolved against the site origin (a
persisted `image_url` there never starts with `/`); carousel product image
URLs — and the classifier's inline fallback Skyscraper records — keep the
raw `src` unresolved. -/
theorem c6_amended_toa_sky_image_absolute (doc : Doc) (r : AdRecord) (u : String) :
    (toaExtract doc = some r → r.image_url = some u → isPrefixL "/".data u.data = false)
    ∧ (skyscraperExtract doc = some r → r.image_url = some u →
        isPrefixL "/".data u.data = false) := by
  constructor
  · intro hr hu
    cases hh : docSelectOne doc selStandardTOA with
    | none => rw [toaExtract, hh] at hr; simp at hr
    | some d =>
      rw [toaExtract, hh] at hr
      simp only [Option.some.injEq] at hr
      subst hr
      simp only at hu
      by_cases ht : truthyS (extract_attribute d selEspotImage "src") = true
      · rw [if_pos ht] at hu
        rw [Option.map_eq_some'] at hu
        obtain ⟨src, _, hsrc⟩ := hu
        rw [← hsrc]
        exact resolveUrl_not_rel src
      · rw [if_neg ht] at hu
        simp at hu
  · intro hr hu
    unfold skyscraperExtract at hr
    by_cases hc : ((docSelectOne doc selSkyTestid).isNone && (docSelectOne doc selAmp).isNone) = true
    · rw [if_pos hc] at hr; simp at hr
    · rw [if_neg hc] at hr
      simp only [Option.some.injEq] at hr
      subst hr
      simp only at hu
      cases hi : docSelectOne doc (tagSel "img") with
      | none => rw [hi] at hu; simp at hu
      | some img =>
        rw [hi] at hu
        have hu2 : (if truthyS (attrOf img "src") = true then
            Option.map resolveUrl (attrOf img "src") else none) = some u := hu
        by_cases ht : truthyS (attrOf img "src") = true
        · rw [if_pos ht] at hu2
          rw [Option.map_eq_some'] at hu2
          obtain ⟨src, _, hsrc⟩ := hu2
          rw [← hsrc]
          exact resolveUrl_not_rel src
        · rw [if_neg ht] at hu2
          simp at hu2

/-- Witness for C6 : a TOA fragment with a root-relative image source gets
the origin prepended. -/
theorem c6_witness :
    (∃ r, toaExtract toaRelImgDoc = some r
      ∧ r.image_url = some "https://www.kroger.com/x.png") ∧
    isPrefixL "/".data "https://www.kroger.com/x.png".data = false :=
  ⟨⟨{ type := "TOA", image_url := some "https://www.kroger.com/x.png" }, by decide, rfl⟩,
   (c6_amended_toa_sky_image_absolute toaRelImgDoc
     { type := "TOA", image_url := some "https://www.kroger.com/x.png" }
     "https://www.kroger.com/x.png").1 (by decide) rfl⟩

/-! ## Claim C7 : selector fallback chains -/

/-- C7 : for each ad type the classifier's candidate selection equals the
specification's fallback-chain combinator over its ordered strategies —
a later selector is consulted only when every earlier one matched nothing,
the first non-empty strategy's matches are returned as-is, and all-empty
strategies yield the empty candidate list rather than an error. -/
theorem c7_selector_fallback_chains (doc : Doc) :
    toaCandidates doc
      = firstNonempty [docSelect doc selStandardTOA, docSelect doc selStandardTOAClass,
          docSelect doc selClassHasTOA]
    ∧ skyscraperCandidates doc
      = firstNonempty [skyStage0 doc, (docSelect doc selSkyFallback1).filter notStdTOA,
          (docSelect doc selSkyFallback2).filter notStdTOA,
          (docSelect doc selAmp).filter notStdTOA]
    ∧ carouselCandidates doc
      = firstNonempty [docSelect doc selCarousel1, docSelect doc selCarousel2,
          docSelect doc selCarousel3, docSelect doc selCarousel4] := by
  refine ⟨?_, ?_, ?_⟩
  · unfold toaCandidates
    by_cases h1 : docSelect doc selStandardTOA = [] <;>
      by_cases h2 : docSelect doc selStandardTOAClass = [] <;>
        by_cases h3 : docSelect doc selClassHasTOA = [] <;>
          simp [firstNonempty, List.isEmpty_iff, h1, h2, h3]
  · unfold skyscraperCandidates skyscraperCandidatesLog
    have hstage : (if !(docSelect doc selSkyscraperTOA).isEmpty then
        (if !((docSelect doc selSkyscraperTOA).filter notStdTOA).isEmpty then
          (skyPrimaryScan (docSelect doc selMonetizationTop)).1
            ++ (docSelect doc selSkyscraperTOA).filter notStdTOA
        else (skyPrimaryScan (docSelect doc selMonetizationTop)).1)
      else (skyPrimaryScan (docSelect doc selMonetizationTop)).1) = skyStage0 doc := by
      unfold skyStage0
      by_cases h1 : docSelect doc selSkyscraperTOA = []
      · simp [h1]
      · by_cases h2 : (docSelect doc selSkyscraperTOA).filter notStdTOA = []
        · simp [List.isEmpty_iff, h1, h2]
        · simp [List.isEmpty_iff, h1, h2]
    simp only [hstage]
    by_cases h1 : skyStage0 doc = [] <;>
      by_cases h2 : (docSelect doc selSkyFallback1).filter notStdTOA = [] <;>
        by_cases h3 : (docSelect doc selSkyFallback2).filter notStdTOA = [] <;>
          by_cases h4 : (docSelect doc selAmp).filter notStdTOA = [] <;>
            simp [firstNonempty, List.isEmpty_iff, h1, h2, h3, h4]
  · unfold carouselCandidates pyOrL
    by_cases h1 : docSelect doc selCarousel1 = [] <;>
      by_cases h2 : docSelect doc selCarousel2 = [] <;>
        by_cases h3 : docSelect doc selCarousel3 = [] <;>
          by_cases h4 : docSelect doc selCarousel4 = [] <;>
            simp [firstNonempty, List.isEmpty_iff, h1, h2, h3, h4]

/-! ## Claim C10 : one Skyscraper record per candidate -/

lemma skyscraperExtract_type {doc : Doc} {r : AdRecord}
    (h : skyscraperExtract doc = some r) : r.type = "Skyscraper" := by
  unfold skyscraperExtract at h
  by_cases hc : ((docSelectOne doc selSkyTestid).isNone && (docSelectOne doc selAmp).isNone) = true
  · rw [if_pos hc] at h; simp at h
  · rw [if_neg hc] at h
    simp only [Option.some.injEq] at h
    rw [← h]

/-- C10 : `extract_ads_from_html` appends a record for every Skyscraper
candidate element: the record count equals the candidate count, every
appended record has type `Skyscraper`, and a candidate on which
`SkyscraperExtractor.extract` returns `NotFound` contributes the inline
fallback record built from its best-effort fields. -/
theorem c10_skyscraper_record_per_candidate (doc : Doc) :
    (skyscraperResults doc).length = (skyscraperCandidates doc).length
    ∧ (∀ d ∈ skyscraperCandidates doc,
        ((skyscraperExtract [d]).getD (skyFallbackRecord d)) ∈ skyscraperResults doc)
    ∧ (∀ r ∈ skyscraperResults doc, r.type = "Skyscraper")
    ∧ (∀ d ∈ skyscraperCandidates doc, skyscraperExtract [d] = none →
        skyFallbackRecord d ∈ skyscraperResults doc) := by
  refine ⟨by simp [skyscraperResults], ?_, ?_, ?_⟩
  · intro d hd
    exact List.mem_map_of_mem _ hd
  · intro r hr
    rw [skyscraperResults, List.mem_map] at hr
    obtain ⟨d, _, hd⟩ := hr
    cases he : skyscraperExtract [d] with
    | none => rw [he] at hd; simp at hd; rw [← hd]; rfl
    | some ad =>
      rw [he] at hd
      simp at hd
      rw [← hd]
      exact skyscraperExtract_type he
  · intro d hd he
    have h0 := List.mem_map_of_mem
      (fun d => (skyscraperExtract [d]).getD (skyFallbackRecord d)) hd
    have h1 : ((skyscraperExtract [d]).getD (skyFallbackRecord d)) ∈
        skyscraperResults doc := h0
    rw [he] at h1
    exact h1

/-- Witness for C10 : a primary Skyscraper candidate whose extractor call
returns `NotFound` (its `data-testid` does not contain the lower-case token
`skyscraper` and it lacks the `amp-container` class) still contributes one
fallback record. -/
theorem c10_witness :
    monetizationDiv ∈ skyscraperCandidates mixedPageDoc
    ∧ skyscraperExtract [monetizationDiv] = none
    ∧ skyFallbackRecord monetizationDiv ∈ skyscraperResults mixedPageDoc
    ∧ (skyscraperResults mixedPageDoc).length = (skyscraperCandidates mixedPageDoc).length :=
  have h1 : monetizationDiv ∈ skyscraperCandidates mixedPageDoc := List.Mem.head _
  ⟨h1, by decide,
   (c10_skyscraper_record_per_candidate mixedPageDoc).2.2.2 monetizationDiv h1 (by decide),
   (c10_skyscraper_record_per_candidate mixedPageDoc).1⟩

/-! ## Claim C3 : brand inference precedence in the TOA extractor -/

/-- C3 : in `TOAExtractor.extract`, alt-text brand inference runs first and
wins: whenever the image has a truthy `src` and a truthy `alt` whose
alt-text inference yields a truthy brand, the returned record carries
exactly that brand, whatever the link's href slug would have yielded —
brand set from alt-text is never overwritten. -/
theorem c3_brand_alt_text_first_wins (doc : Doc) (d img : Node) (u alt b : String) :
    docSelectOne doc selStandardTOA = some d →
    elSelectOne d selEspotImage = some img →
    attrOf img "src" = some u → u ≠ "" →
    attrOf img "alt" = some alt → alt ≠ "" →
    extract_brand_from_text alt = some b → b ≠ "" →
    ∃ r, toaExtract doc = some r ∧ r.brand = some b := by
  intro hd himg hsrc hu halt ha hb hbne
  have h1 : extract_attribute d selEspotImage "src" = some u := by
    simp [extract_attribute, himg, hsrc]
  have h2 : extract_attribute d selEspotImage "alt" = some alt := by
    simp [extract_attribute, himg, halt]
  simp only [toaExtract, hd, h1, h2, truthyS_some hu, truthyS_some ha, hb,
    truthyS_some hbne, if_true, ite_true, eq_self_iff_true, Option.some_bind]
  exact ⟨_, rfl, rfl⟩

/-- Witness for C3 : alt-text `Organic snacks by Acme Foods.` beats the
conflicting href slug `/pr/kpm-other-brand`, yielding brand `Acme Foods`. -/
theorem c3_witness :
    extract_brand_from_text "Organic snacks by Acme Foods." = some "Acme Foods"
    ∧ extract_brand_from_href "/pr/kpm-other-brand" = some "Other Brand"
    ∧ (∃ r, toaExtract toaAcmeDoc = some r ∧ r.brand = some "Acme Foods") :=
  ⟨by decide, by decide,
   c3_brand_alt_text_first_wins toaAcmeDoc
     (.elem "div" [("data-testid", "StandardTOA")]
       [ .elem "div" [("class", "espot-header")] [.text " Save on Snacks "]
       , .elem "div" [("class", "espot-subText")] [.text "Limited time"]
       , .elem "span" [("class", "espot-linkText")] [.text "Shop Now"]
       , .elem "img" [("class", "espot-image"), ("src", "/img/a.png"),
           ("alt", "Organic snacks by Acme Foods.")] []
       , .elem "a" [("class", "espot-link"), ("href", "/pr/kpm-other-brand")] [.text "go"] ])
     (.elem "img" [("class", "espot-image"), ("src", "/img/a.png"),
        ("alt", "Organic snacks by Acme Foods.")] [])
     "/img/a.png" "Organic snacks by Acme Foods." "Acme Foods"
     rfl rfl rfl (by decide) rfl (by decide) (by decide) (by decide)⟩

/-! ## Claim C4 : `extract_brand_from_text` -/

lemma getLastD_default_irrel {α : Type} : ∀ (l : List α) (d1 d2 : α), l ≠ [] →
    l.getLastD d1 = l.getLastD d2
  | [], _, _, h => absurd rfl h
  | [a], _, _, _ => rfl
  | a :: b :: t, d1, d2, _ => by
    rw [List.getLastD_cons d1 a (b :: t), List.getLastD_cons d2 a (b :: t)]

lemma pySplitBy_ne_nil (l : List Char) : pySplitBy l ≠ [] := by
  induction l using pySplitBy.induct
  case case1 rest ih => simp [pySplitBy]
  case case2 c rest h hd tl heq ih =>
    rw [pySplitBy]
    · rw [heq]
      simp
    · exact h
  case case3 c rest h heq ih =>
    rw [pySplitBy]
    · rw [heq]
      simp
    · exact h
  case case4 => simp [pySplitBy]

lemma containsBy_cons {c : Char} {rest : List Char}
    (h : ∀ (r : List Char), c = 'b' → rest = 'y' :: r → False) :
    containsBy (c :: rest) = containsBy rest := by
  rw [containsBy]
  exact h

lemma pySplitBy_no_by (l : List Char) (hc : containsBy l = false) : pySplitBy l = [l] := by
  induction l using pySplitBy.induct
  case case1 rest ih => simp [containsBy] at hc
  case case2 c rest h hd tl heq ih =>
    rw [containsBy_cons h] at hc
    have := ih hc
    rw [heq] at this
    injection this with h1 h2
    subst h1
    rw [pySplitBy]
    · rw [heq, h2]
    · exact h
  case case3 c rest h heq ih =>
    exact absurd heq (pySplitBy_ne_nil rest)
  case case4 => rfl

lemma two_le_length_pySplitBy (l : List Char) (hc : containsBy l = true) :
    2 ≤ (pySplitBy l).length := by
  induction l using pySplitBy.induct
  case case1 rest ih =>
    have hstep : pySplitBy ('b' :: 'y' :: rest) = [] :: pySplitBy rest := by
      rw [pySplitBy]
    rw [hstep]
    have := pySplitBy_ne_nil rest
    cases hh : pySplitBy rest with
    | nil => exact absurd hh this
    | cons a t => simp
  case case2 c rest h hd tl heq ih =>
    have hstep : pySplitBy (c :: rest) = (c :: hd) :: tl := by
      rw [pySplitBy]
      · rw [heq]
      · exact h
    rw [containsBy_cons h] at hc
    have := ih hc
    rw [heq] at this
    rw [hstep]
    simpa using this
  case case3 c rest h heq ih =>
    exact absurd heq (pySplitBy_ne_nil rest)
  case case4 => simp [containsBy] at hc

lemma getLastD_pySplitBy (l : List Char) :
    (pySplitBy l).getLastD [] = if containsBy l then afterLastBy l else l := by
  induction l using pySplitBy.induct
  case case1 rest ih =>
    have hby : containsBy ('b' :: 'y' :: rest) = true := rfl
    have hafter : afterLastBy ('b' :: 'y' :: rest)
        = if containsBy rest then afterLastBy rest else rest := by
      rw [afterLastBy]
    rw [hby, if_pos rfl, hafter]
    have hstep : pySplitBy ('b' :: 'y' :: rest) = [] :: pySplitBy rest := by
      rw [pySplitBy]
    rw [hstep, List.getLastD_cons]
    rw [getLastD_default_irrel (pySplitBy rest) [] [] (pySplitBy_ne_nil rest)] at ih
    exact ih
  case case2 c rest h hd tl heq ih =>
    have hstep : pySplitBy (c :: rest) = (c :: hd) :: tl := by
      rw [pySplitBy]
      · rw [heq]
      · exact h
    have hcont : containsBy (c :: rest) = containsBy rest := containsBy_cons h
    have hafter : afterLastBy (c :: rest) = afterLastBy rest := by
      rw [afterLastBy]
      exact h
    rw [hstep, hcont]
    cases tl with
    | nil =>
      by_cases hcr : containsBy rest = true
      · have h2 := two_le_length_pySplitBy rest hcr
        rw [heq] at h2
        simp at h2
      · have h2 := pySplitBy_no_by rest (by simpa using hcr)
        rw [heq] at h2
        injection h2 with e1 e2
        subst e1
        simp only [Bool.not_eq_true] at hcr
        rw [hcr, if_neg (by simp)]
        rfl
    | cons t1 ts =>
      by_cases hcr : containsBy rest = true
      · rw [if_pos hcr, hafter]
        rw [heq] at ih
        rw [if_pos hcr] at ih
        rw [List.getLastD_cons] at ih ⊢
        rw [getLastD_default_irrel (t1 :: ts) (c :: hd) hd (by simp)]
        exact ih
      · have h2 := pySplitBy_no_by rest (by simpa using hcr)
        rw [heq] at h2
        injection h2 with e1 e2
        simp at e2
  case case3 c rest h heq ih =>
    exact absurd heq (pySplitBy_ne_nil rest)
  case case4 =>
    rfl

/-- Counterexample to C4 : on `STANDS BY ACME.` the claimed reading (the
segment after the last case-insensitive occurrence of `by`, cleaned up)
yields `ACME`, but the code returns the whole string `STANDS BY ACME` —
the occurrence check lowers the text while the split is case-sensitive;
and on `Baby food` the token `by` does not occur, yet the code returns
`food` because the check is a bare substring test. -/
theorem c4_counterexample :
    brandFromAltTextClaimed "STANDS BY ACME." = some "ACME"
    ∧ extract_brand_from_text "STANDS BY ACME." = some "STANDS BY ACME"
    ∧ extract_brand_from_text "Baby food" = some "food" :=
  ⟨by decide, by decide, by decide⟩

/-- C4 amended : `extract_brand_from_text` returns `None` for the empty
string; otherwise it tests whether `by` occurs as a substring (not token)
of the lower-cased text, and if so returns the segment after the last
case-sensitive occurrence of `by` in the original text — the whole text
when `by` occurs only in another letter case — trimmed,
whitespace-normalized and with trailing periods stripped; otherwise
`None`. -/
theorem c4_amended_brand_from_text_characterisation (text : String) :
    extract_brand_from_text text =
      if text = "" then none
      else if containsBy (lowerL text.data) then
        some ⟨rstripDotL (normWsL (pyStripL
          (if containsBy text.data then afterLastBy text.data else text.data)))⟩
      else none := by
  unfold extract_brand_from_text
  by_cases h0 : text = ""
  · rw [if_pos h0, if_pos h0]
  · rw [if_neg h0, if_neg h0]
    by_cases h1 : containsBy (lowerL text.data) = true
    · rw [if_pos h1, if_pos h1, getLastD_pySplitBy]
    · rw [if_neg h1, if_neg h1]

/-! ## Claim C2 : Standard-Banner marker exclusivity -/

lemma skyPrimaryScan_mem : ∀ (ds : List Node) (d : Node), d ∈ (skyPrimaryScan ds).1 →
    ¬ attrOf d "data-testid" = some "StandardTOA" := by
  intro ds
  induction ds with
  | nil => intro d hd; simp [skyPrimaryScan] at hd
  | cons x xs ih =>
    intro d hd
    by_cases hx : attrOf x "data-testid" = some "StandardTOA"
    · have he : (skyPrimaryScan (x :: xs)).1 = (skyPrimaryScan xs).1 := by
        simp [skyPrimaryScan, hx]
      rw [he] at hd
      exact ih d hd
    · have he : (skyPrimaryScan (x :: xs)).1 = x :: (skyPrimaryScan xs).1 := by
        simp [skyPrimaryScan, hx]
      rw [he] at hd
      rcases List.mem_cons.mp hd with h | h
      · subst h; exact hx
      · exact ih d h

lemma skyPrimaryScan_logs (ds : List Node)
    (h : ∀ d ∈ ds, ¬ attrOf d "data-testid" = some "StandardTOA") :
    (skyPrimaryScan ds).2 = [] := by
  induction ds with
  | nil => rfl
  | cons x xs ih =>
    have hx := h x (List.mem_cons_self x xs)
    have he : (skyPrimaryScan (x :: xs)).2 = (skyPrimaryScan xs).2 := by
      simp [skyPrimaryScan, hx]
    rw [he]
    exact ih (fun d hd => h d (List.mem_cons_of_mem _ hd))

lemma monetization_attr {doc : Doc} {d : Node}
    (h : d ∈ docSelect doc selMonetizationTop) :
    ¬ attrOf d "data-testid" = some "StandardTOA" := by
  have hm := (List.mem_filter.mp h).2
  cases d with
  | text s2 => simp [matchesSel] at hm
  | elem t attrs c =>
    simp [matchesSel, selMonetizationTop] at hm
    intro hc
    simp only [attrOf] at hc
    rw [hm.2] at hc
    exact absurd hc (by decide)

lemma mem_filter_notStdTOA {l : List Node} {d : Node} (h : d ∈ l.filter notStdTOA) :
    ¬ attrOf d "data-testid" = some "StandardTOA" := by
  have := (List.mem_filter.mp h).2
  simpa [notStdTOA] using this

/-- Counterexample to C2 : a div carrying the Standard-Banner marker that
matches only the loose `div.amp-container` fallback selector is excluded
from the Skyscraper candidates and lands in the TOA candidates — but the
exclusion produces no log line at all (the per-exclusion log statement sits
on the primary-selector path, where it can never fire). -/
theorem c2_counterexample :
    docSelect ampStdTOADoc selAmp = [ampStdTOADiv]
    ∧ skyscraperCandidatesLog ampStdTOADoc = ([], [])
    ∧ toaCandidates ampStdTOADoc = [ampStdTOADiv] :=
  ⟨rfl, rfl, rfl⟩

/-- C2 amended : an element carrying the Standard-Banner marker attribute
never appears in the Skyscraper candidate list and always appears in the
StandardBanner (TOA) candidate list, but the exclusions are not logged —
the classifier's exclusion log is empty on every page, because the only
logging exclusion sits on the primary selector path whose attribute
equality makes the marker impossible. -/
theorem c2_amended_marker_exclusive_but_unlogged :
    (∀ (doc : Doc) (div : Node), div ∈ skyscraperCandidates doc →
        ¬ attrOf div "data-testid" = some "StandardTOA")
    ∧ (∀ (doc : Doc) (div : Node), div ∈ allNodesL doc →
        matchesSel selStandardTOA div = true → div ∈ toaCandidates doc)
    ∧ (∀ doc : Doc, (skyscraperCandidatesLog doc).2 = []) := by
  refine ⟨?_, ?_, ?_⟩
  · intro doc div h
    simp only [skyscraperCandidates, skyscraperCandidatesLog] at h
    repeat' split at h
    all_goals
      first
      | exact mem_filter_notStdTOA h
      | exact skyPrimaryScan_mem _ _ h
      | (rcases List.mem_append.mp h with h2 | h2
         · exact skyPrimaryScan_mem _ _ h2
         · exact mem_filter_notStdTOA h2)
  · intro doc div hmem hsel
    exact toaCandidates_of_mem (List.mem_filter.mpr ⟨hmem, hsel⟩)
  · intro doc
    exact skyPrimaryScan_logs _ (fun d hd => monetization_attr hd)

/-- Witness for C2 : on a page holding a Standard-Banner div and a primary
skyscraper div, the skyscraper candidate is marker-free, the banner div is
classified TOA, and the exclusion log is empty. -/
theorem c2_witness :
    monetizationDiv ∈ skyscraperCandidates mixedPageDoc
    ∧ ¬ attrOf monetizationDiv "data-testid" = some "StandardTOA"
    ∧ stdTOADiv ∈ allNodesL mixedPageDoc
    ∧ matchesSel selStandardTOA stdTOADiv = true
    ∧ stdTOADiv ∈ toaCandidates mixedPageDoc
    ∧ (skyscraperCandidatesLog mixedPageDoc).2 = [] :=
  have h1 : monetizationDiv ∈ skyscraperCandidates mixedPageDoc := List.Mem.head _
  have h2 : stdTOADiv ∈ allNodesL mixedPageDoc := List.Mem.head _
  ⟨h1, c2_amended_marker_exclusive_but_unlogged.1 mixedPageDoc monetizationDiv h1,
   h2, rfl, c2_amended_marker_exclusive_but_unlogged.2.1 mixedPageDoc stdTOADiv h2 rfl,
   c2_amended_marker_exclusive_but_unlogged.2.2 mixedPageDoc⟩

/-! ## Claim C8 : the result aggregator's two modes -/

lemma insertDesc_perm (x : PageResult) (l : List PageResult) :
    List.Perm (insertDesc x l) (x :: l) := by
  induction l with
  | nil => exact List.Perm.refl _
  | cons y ys ih =>
    rw [insertDesc]
    by_cases h : lexLtL y.timestamp.data x.timestamp.data = true
    · rw [if_pos h]
    · rw [if_neg h]
      exact (List.Perm.cons y ih).trans (List.Perm.swap x y ys)

lemma foldl_insertDesc_perm : ∀ (l acc : List PageResult),
    List.Perm (l.foldl (fun a x => insertDesc x a) acc) (l ++ acc) := by
  intro l
  induction l with
  | nil => intro acc; simp
  | cons x xs ih =>
    intro acc
    rw [List.foldl_cons]
    have h1 := ih (insertDesc x acc)
    have h2 : List.Perm (xs ++ insertDesc x acc) (xs ++ (x :: acc)) :=
      List.Perm.append_left xs (insertDesc_perm x acc)
    exact (h1.trans h2).trans List.perm_middle

lemma sortDesc_perm (rs : List PageResult) : List.Perm (sortDesc rs) rs := by
  unfold sortDesc
  have h1 := List.reverse_perm (rs.foldl (fun a x => insertDesc x a) [])
  have h2 := foldl_insertDesc_perm rs []
  simpa using h1.trans h2

lemma pairsOfGroups_addToGroup (k : String) (r : PageResult) :
    ∀ gs : List (String × List PageResult),
    List.Perm (pairsOfGroups (addToGroup k r gs)) (pairsOfGroups gs ++ [(k, r)]) := by
  intro gs
  induction gs with
  | nil => simp [pairsOfGroups, addToGroup]
  | cons g gs ih =>
    obtain ⟨k2, rs⟩ := g
    by_cases h : k2 = k
    · subst h
      rw [addToGroup, if_pos rfl]
      simp only [pairsOfGroups, List.map_cons, List.flatten_cons, List.map_append,
        List.map_cons, List.map_nil]
      have h1 : (List.map (fun r2 => (k2, r2)) rs ++ [(k2, r)])
            ++ (List.map (fun g => g.2.map (fun r2 => (g.1, r2))) gs).flatten
          = List.map (fun r2 => (k2, r2)) rs
            ++ ((k2, r) :: (List.map (fun g => g.2.map (fun r2 => (g.1, r2))) gs).flatten) := by
        rw [List.append_assoc]
        rfl
      rw [h1]
      exact List.perm_middle.trans
        (List.perm_append_singleton _ _).symm
    · rw [addToGroup, if_neg h]
      simp only [pairsOfGroups, List.map_cons, List.flatten_cons]
      have h1 := List.Perm.append_left (rs.map (fun r2 => (k2, r2))) (ih)
      refine h1.trans (List.Perm.of_eq ?_)
      rw [List.append_assoc]
      rfl

lemma pairsOfGroups_foldl (pairs : List (String × PageResult)) :
    ∀ gs, List.Perm
      (pairsOfGroups (pairs.foldl (fun gs p => addToGroup p.1 p.2 gs) gs))
      (pairsOfGroups gs ++ pairs) := by
  induction pairs with
  | nil => intro gs; simp
  | cons p ps ih =>
    intro gs
    rw [List.foldl_cons]
    have h1 := ih (addToGroup p.1 p.2 gs)
    have h3 : List.Perm (pairsOfGroups (addToGroup p.1 p.2 gs) ++ ps)
        ((pairsOfGroups gs ++ [(p.1, p.2)]) ++ ps) :=
      List.Perm.append_right ps (pairsOfGroups_addToGroup p.1 p.2 gs)
    have h4 : (pairsOfGroups gs ++ [(p.1, p.2)]) ++ ps = pairsOfGroups gs ++ (p :: ps) := by
      rw [List.append_assoc]
      simp
    exact (h1.trans h3).trans (List.Perm.of_eq h4)

lemma pairsOfGroups_groupPairs (pairs : List (String × PageResult)) :
    List.Perm (pairsOfGroups (groupPairs pairs)) pairs := by
  have h := pairsOfGroups_foldl pairs []
  simpa [groupPairs, pairsOfGroups] using h

lemma foldl_append_acc {β : Type} (m : β → List PageResult) :
    ∀ (gs : List β) (acc : List PageResult),
      gs.foldl (fun a g => a ++ m g) acc = acc ++ (gs.map m).flatten := by
  intro gs
  induction gs with
  | nil => intro acc; simp
  | cons g gs ih =>
    intro acc
    rw [List.foldl_cons, ih]
    simp [List.append_assoc]

lemma join_map_perm {β : Type} (f g : β → List PageResult)
    (h : ∀ b, List.Perm (f b) (g b)) :
    ∀ l : List β, List.Perm ((l.map f).flatten) ((l.map g).flatten) := by
  intro l
  induction l with
  | nil => simp
  | cons b bs ih =>
    simp only [List.map_cons, List.flatten_cons]
    exact List.Perm.append (h b) ih

lemma join_eq_map_pairsOfGroups (gs : List (String × List PageResult)) :
    (gs.map (fun g => g.2.map (setTerm g.1))).flatten
      = (pairsOfGroups gs).map (fun p => setTerm p.1 p.2) := by
  induction gs with
  | nil => rfl
  | cons g gs ih =>
    simp only [pairsOfGroups, List.map_cons, List.flatten_cons, List.map_append] at *
    rw [ih]
    congr 1
    rw [List.map_map]
    rfl

lemma process_all_eq (files : List HtmlFile) (daily : List PageResult) :
    process_all_html_files files daily = daily ++ newEntries files := by
  unfold process_all_html_files newEntries
  rw [foldl_append_acc, foldl_append_acc]
  simp

lemma newEntries_perm (files : List HtmlFile) :
    List.Perm (newEntries files)
      ((extractPairs files).map (fun p => setTerm p.1 p.2)) := by
  unfold newEntries
  rw [foldl_append_acc]
  simp only [List.nil_append]
  have h1 := join_map_perm (fun g => (sortDesc g.2).map (setTerm g.1))
    (fun g => g.2.map (setTerm g.1))
    (fun g => List.Perm.map (setTerm g.1) (sortDesc_perm g.2))
    (groupPairs (extractPairs files))
  refine h1.trans ?_
  rw [join_eq_map_pairsOfGroups]
  exact List.Perm.map _ (pairsOfGroups_groupPairs (extractPairs files))

/-- Counterexample to C8 : with two extracted files for two distinct
keywords, "process latest only" mode appends just the single newest file's
result — one entry, not the latest-per-keyword subset of both keywords
(the keyword-`a` result is simply dropped). -/
theorem c8_counterexample :
    process_latest_html_file [fileA, fileB] [] = some [pageB]
    ∧ (extractPairs [fileA, fileB]).length = 2
    ∧ pageA ∉ [pageB] :=
  ⟨rfl, rfl, by decide⟩

/-- C8 amended : in "process all" mode the aggregator appends every one of
the N extracted PageResults to the pre-existing day collection — the
appended block is a permutation of the processed inputs with keywords
normalised, no deduplication — and re-loading the persisted file (explicit
state passing) reproduces them; "process latest only" mode instead appends
exactly one result, the one of the single newest file by modification
time, regardless of keywords. -/
theorem c8_amended_all_appends_latest_picks_newest :
    (∀ (files : List HtmlFile) (daily : List PageResult),
       process_all_html_files files daily = daily ++ newEntries files
       ∧ List.Perm (newEntries files)
           ((extractPairs files).map (fun p => setTerm p.1 p.2)))
    ∧ (∀ (f : HtmlFile) (fs : List HtmlFile) (daily : List PageResult) (r : PageResult),
       (maxByMtime f fs).extracted = some r →
       process_latest_html_file (f :: fs) daily = some (daily ++ [r])) := by
  constructor
  · intro files daily
    exact ⟨process_all_eq files daily, newEntries_perm files⟩
  · intro f fs daily r h
    simp [process_latest_html_file, h]

/-- Witness for C8 : the two-file batch appends both results in "process
all" mode, and "process latest only" picks `fileB`, the newer file. -/
theorem c8_witness :
    ((maxByMtime fileA [fileB]).extracted = some pageB)
    ∧ process_latest_html_file [fileA, fileB] [] = some ([] ++ [pageB])
    ∧ process_all_html_files [fileA, fileB] [] = [] ++ newEntries [fileA, fileB]
    ∧ newEntries [fileA, fileB] = [pageA, pageB] :=
  ⟨rfl,
   c8_amended_all_appends_latest_picks_newest.2 fileA [fileB] [] pageB rfl,
   (c8_amended_all_appends_latest_picks_newest.1 [fileA, fileB] []).1,
   by decide⟩

end RMN
